import Mathlib

/-!
# Shallow embedding of the tendermint v1 prioritized mempool

This file embeds `mempool/v1/mempool.go` (the `TxMempool` orchestrator) in
Lean 4 and proves the properties claimed about it.

Modelling conventions:

* A transaction (`types.Tx`) is its byte payload, `List Nat`.  Hashes are
  injective on payloads, so `mempool.TxKey tx` is identified with the
  payload itself.
* `WrappedTx` pointers are shared in Go between the store, the priority
  index and the gossip list.  We model that aliasing by keeping the single
  authoritative copy of each `WrappedTx` in the store and letting the
  priority index hold transaction keys and the gossip list hold nodes
  carrying the key; an in-place mutation of a `WrappedTx` is a store
  update, visible through every index, and an index entry keeps its
  position when the store copy is mutated.
* The `clist.CList` gossip list is modelled as a list of nodes that are
  marked `removed` instead of being physically unlinked ("deferred
  reclamation"); `Len` counts live nodes, and the recheck cursor is an
  index into the node list.  The embedding is sequential: within one
  modelled step no concurrent removal happens ahead of the cursor, so
  `Next` is the successor index.
* Go `panic` is modelled by returning `none` from the affected operation.
* Metrics are modelled as an event list (`Event`), matching the spec's
  treatment of metrics as a pure sink that nevertheless records which
  branch was taken (`EvictedTxs`, `RejectedTxs`, `FailedTxs`).
* `preCheck`/`postCheck` are function parameters of the operations that
  consult them (in Go they are fields set at construction / by `Update`);
  a `nil` Go function is the always-passing function.
* Components of this repository that are not part of the provided source
  (`TxStore`, `TxPriorityQueue`, the LRU tx cache, `Update`'s body, which
  is a `panic("not implemented")` stub) are modelled from the spec; each
  such definition says so in its doc comment.
-/

namespace MempoolV1

/-- A transaction payload; stands for both `types.Tx` and its key
`mempool.TxKey` (the digest is injective on payloads). -/
abbrev TxKey := List Nat

/-- `WrappedTx` from the data model: payload, priority, sender, timestamp,
set of peers that sent it, and the back-reference into the gossip list
(`gossipEl`), modelled as the index of the owning gossip node. -/
structure WrappedTx where
  tx : TxKey
  priority : Int
  sender : String
  timestamp : Nat
  peers : List Nat
  gossipPos : Nat
deriving Repr, DecidableEq

/-- `wtx.Size() = len(wtx.tx)`. -/
def WrappedTx.txSize (w : WrappedTx) : Nat := w.tx.length

/-- A node of the gossip `clist.CList`; removal marks the node instead of
reclaiming it, mirroring the deferred reclamation of `clist`. -/
structure GossipEl where
  key : TxKey
  removed : Bool
deriving Repr, DecidableEq

/-- The mempool configuration fields consulted by the source
(`config.MempoolConfig`). -/
structure MempoolConfig where
  size : Nat
  maxTxsBytes : Int
  maxTxBytes : Nat
  cacheSize : Nat
  keepInvalidTxsInCache : Bool
  recheck : Bool
deriving Repr, DecidableEq

/-- The `CheckTx` part of an ABCI response
(`abci.ResponseCheckTx`: code, priority, sender). -/
structure ResponseCheckTx where
  code : Nat
  priority : Int
  sender : String
deriving Repr, DecidableEq

/-- An ABCI response payload variant (`abci.Response.Value`): either a
`Response_CheckTx`, a `Response_Flush`, or some other variant. -/
inductive Response where
  | checkTx (c : ResponseCheckTx)
  | flush
  | other
deriving Repr, DecidableEq

/-- Whether a response carries the `CheckTx` variant. -/
def Response.isCheckTx : Response → Bool
  | .checkTx _ => true
  | _ => false

/-- A request dispatched to the proxy app connection: `CheckTxAsync`
(with the recheck flag from `CheckTxType_Recheck`) or `FlushAsync`. -/
inductive Request where
  | checkTx (tx : TxKey) (recheck : Bool)
  | flush
deriving Repr, DecidableEq

/-- `req.GetCheckTx().Tx`; on a non-CheckTx request the Go getter returns
`nil`, i.e. the empty payload. -/
def Request.reqTx : Request → TxKey
  | .checkTx tx _ => tx
  | .flush => []

/-- `mempool.TxInfo`: the fields the mempool consults. -/
structure TxInfo where
  senderID : Nat
deriving Repr, DecidableEq

/-- Metric/branch events recorded by the admission callback, standing for
the `EvictedTxs`, `RejectedTxs` and `FailedTxs` metric increments. -/
inductive Event where
  | evicted (v : WrappedTx)
  | rejected
  | failed
deriving Repr, DecidableEq

/-- The state of a `TxMempool`.  `proxyError` models
`proxyAppConn.Error() != nil`, `dispatchError` a failing `CheckTxAsync`
dispatch; `txsAvailableEnabled` is `txsAvailable != nil` and
`txsAvailableFull` the occupancy of that 1-buffered channel. -/
structure State where
  config : MempoolConfig
  height : Int
  sizeBytes : Int
  txsAvailableEnabled : Bool
  txsAvailableFull : Bool
  notifiedTxsAvailable : Bool
  proxyError : Bool
  dispatchError : Bool
  cache : List TxKey
  storeTxs : List WrappedTx
  storeRemoved : List TxKey
  priorityIndex : List TxKey
  gossip : List GossipEl
  recheckCursor : Option Nat
  recheckEnd : Option Nat
deriving Repr, DecidableEq

/-- `TxMempool.Size()`: the length of the gossip index
(`gossipIndex.Len()`, the number of live nodes). -/
def State.size (s : State) : Nat :=
  (s.gossip.filter (fun e => !e.removed)).length

/-- `TxMempool.SizeBytes()`. -/
def State.bytes (s : State) : Int := s.sizeBytes

/-- Modelled from the spec: `TxStore.GetTxByHash`/`get(hash)` of the
TxStore component (its source is not under `src/`): look the key up among
the resident transactions. -/
def getTx (s : State) (k : TxKey) : Option WrappedTx :=
  s.storeTxs.find? (fun w => w.tx = k)

/-- Modelled from the spec: `TxStore.IsTxRemoved` (`is_removed(hash)`) of
the TxStore component: membership in the tombstone set. -/
def isTxRemoved (s : State) (k : TxKey) : Bool :=
  s.storeRemoved.contains k

/-- Modelled from the spec: `TxCache.Push` (the LRU tx cache source is not
under `src/`): with `cacheSize = 0` the cache is the no-op `NopTxCache`
whose `Push` returns `true`; otherwise a bounded LRU set kept in recency
order (back = most recent): a hit is moved to the back and `false` is
returned, a miss is appended, evicting the least recently used front
entry when the cache is full, and `true` is returned. -/
def cachePush (cacheSize : Nat) (c : List TxKey) (k : TxKey) : List TxKey × Bool :=
  if cacheSize = 0 then (c, true)
  else if c.contains k then (c.filter (fun j => j ≠ k) ++ [k], false)
  else if cacheSize ≤ c.length then (c.tail ++ [k], true)
  else (c ++ [k], true)

/-- Modelled from the spec: `TxCache.Remove`. -/
def cacheRemove (c : List TxKey) (k : TxKey) : List TxKey :=
  c.filter (fun j => j ≠ k)

/-- Modelled from the spec: `TxStore.GetOrSetPeerByTxHash` (a `TxStore`
method): if a transaction with this key is resident, record that the peer
sent it; `(tx, true)` if the peer is newly added, `(tx, false)` if it was
already known, `(none, false)` if the key is not resident.  The third
component is the updated resident list. -/
def getOrSetPeerByTxHash (txs : List WrappedTx) (k : TxKey) (peer : Nat) :
    Option WrappedTx × Bool × List WrappedTx :=
  match txs.find? (fun w => w.tx = k) with
  | none => (none, false, txs)
  | some w =>
    if w.peers.contains peer then (some w, false, txs)
    else
      (some w, true,
        txs.map (fun x => if x.tx = k then { x with peers := peer :: x.peers } else x))

/-- Modelled from the spec: `TxStore.SetTx` (`set(wtx)`): store as
resident and clear any tombstone.  The store is a Hash→WrappedTx map, so
the assignment overwrites an entry whose key is already resident and
appends a new entry otherwise. -/
def storeSetTx (s : State) (w : WrappedTx) : State :=
  { s with
    storeTxs :=
      if s.storeTxs.any (fun x => x.tx = w.tx) then
        s.storeTxs.map (fun x => if x.tx = w.tx then w else x)
      else s.storeTxs ++ [w],
    storeRemoved := s.storeRemoved.filter (fun j => j ≠ w.tx) }

/-- Modelled from the spec: `TxStore.RemoveTx` (`remove(wtx)`): mark
tombstoned and drop from the resident map. -/
def storeRemoveTx (s : State) (w : WrappedTx) : State :=
  { s with
    storeTxs := s.storeTxs.filter (fun x => x.tx ≠ w.tx),
    storeRemoved := w.tx :: s.storeRemoved }

/-- One comparison step of the minimum-priority selection. -/
def minStep (acc : Option WrappedTx) (w : WrappedTx) : Option WrappedTx :=
  match acc with
  | none => some w
  | some b => if w.priority < b.priority then some w else some b

/-- The element of a list minimizing `priority` (the head of the heap
restricted to the given candidates); `none` on the empty list. -/
def minByPriority (l : List WrappedTx) : Option WrappedTx :=
  l.foldl minStep none

/-- Modelled from the spec: `TxPriorityQueue.GetEvictableTx` (the priority
queue source is not under `src/`): returns the lowest-priority resident
transaction with priority strictly less than `p`; if none exists (heap
empty, or every resident has priority ≥ `p`), returns `none`.  The heap
holds references to store-owned transactions, so entries resolve through
the store. -/
def getEvictableTx (s : State) (p : Int) : Option WrappedTx :=
  minByPriority ((s.priorityIndex.filterMap (fun k => getTx s k)).filter
    (fun w => w.priority < p))

/-- `mempool.ErrMempoolIsFull`. -/
structure ErrMempoolIsFull where
  numTxs : Nat
  maxTxs : Nat
  txsBytes : Int
  maxTxsBytes : Int
deriving Repr, DecidableEq

/-- `TxMempool.canAddTx`: `none` iff `Size < config.Size` and
`sizeBytes + wtx.Size ≤ config.MaxTxsBytes`. -/
def canAddTx (s : State) (wtx : WrappedTx) : Option ErrMempoolIsFull :=
  let numTxs := s.size
  let sizeBytes := s.bytes
  if s.config.size ≤ numTxs ∨ s.config.maxTxsBytes < (wtx.txSize : Int) + sizeBytes then
    some (ErrMempoolIsFull.mk numTxs s.config.size sizeBytes s.config.maxTxsBytes)
  else none

/-- `TxMempool.insertTx`: store the transaction, push it on the priority
index, append a gossip node (remembering the element on the transaction)
and add its payload length to `sizeBytes`. -/
def insertTx (s : State) (wtx : WrappedTx) : State :=
  let wtx1 := { wtx with gossipPos := s.gossip.length }
  let s1 := storeSetTx s wtx1
  let s2 := { s1 with priorityIndex := s1.priorityIndex ++ [wtx1.tx] }
  let s3 := { s2 with gossip := s2.gossip ++ [GossipEl.mk wtx1.tx false] }
  { s3 with sizeBytes := s3.sizeBytes + (wtx1.txSize : Int) }

/-- `TxMempool.removeTx`: a no-op if the transaction is already
tombstoned; otherwise tombstone it in the store, remove it from the
priority index, unlink its gossip node (deferred reclamation keeps the
node in place, marked removed), subtract its payload length from
`sizeBytes`, and optionally remove it from the cache. -/
def removeTx (s : State) (wtx : WrappedTx) (removeFromCache : Bool) : State :=
  if isTxRemoved s wtx.tx then s
  else
    let s1 := storeRemoveTx s wtx
    let s2 := { s1 with priorityIndex := s1.priorityIndex.filter (fun k => k ≠ wtx.tx) }
    let g := s2.gossip.map (fun e => if e.key = wtx.tx then { e with removed := true } else e)
    let s3 := { s2 with gossip := g }
    let s4 := { s3 with sizeBytes := s3.sizeBytes - (wtx.txSize : Int) }
    if removeFromCache then { s4 with cache := cacheRemove s4.cache wtx.tx } else s4

/-- `TxMempool.notifyTxsAvailable`: panics (`none`) when the mempool is
empty; otherwise, if the channel is allocated and no notification has
fired this height, mark notified and perform a non-blocking send on the
1-buffered channel.  The returned flag records whether a value was
actually sent (the send is dropped when the buffer is already full). -/
def notifyTxsAvailable (s : State) : Option (State × Bool) :=
  if s.size = 0 then none
  else if s.txsAvailableEnabled && !s.notifiedTxsAvailable then
    some
      ({ s with notifiedTxsAvailable := true, txsAvailableFull := true },
        !s.txsAvailableFull)
  else some (s, false)

/-- `TxMempool.NextGossipTx`: dereference `gossipIndex.Front().Value`
unconditionally; when the gossip index is empty `Front()` is `nil` and the
dereference panics (`none`). -/
def nextGossipTx (s : State) : Option WrappedTx :=
  match (s.gossip.filter (fun e => !e.removed)).head? with
  | none => none
  | some e => getTx s e.key

/-- Runs an optional pre-check filter; a `nil` Go function always
passes. -/
def preCheckRun (f : Option (TxKey → Bool)) (tx : TxKey) : Bool :=
  match f with
  | some g => g tx
  | none => true

/-- Runs an optional post-check filter (`postCheck(tx, res)`); `true`
means `err == nil`. -/
def postCheckRun (f : Option (TxKey → ResponseCheckTx → Bool)) (tx : TxKey)
    (c : ResponseCheckTx) : Bool :=
  match f with
  | some g => g tx c
  | none => true

/-- The outcome observed by a `CheckTx` caller.  `okCached` and
`okDispatched` are both the `nil` return; they are distinguished so that
theorems can state whether a request was dispatched to the validator. -/
inductive CheckTxOutcome where
  | errTxTooLarge (max actual : Nat)
  | errPreCheck
  | errProxy
  | errTxInCache
  | errDispatch
  | okCached
  | okDispatched
deriving Repr, DecidableEq

/-- `TxMempool.CheckTx`: size check, pre-check, proxy health probe,
cache push; on a cache hit consult `GetOrSetPeerByTxHash` and fail with
`ErrTxInCache` iff the transaction is resident and the sender is newly
added; otherwise dispatch `CheckTxAsync` (removing the hash from the
cache again if the dispatch fails).  The dispatched request list is
returned alongside the outcome and the state. -/
def CheckTx (s : State) (preCheck : Option (TxKey → Bool)) (tx : TxKey)
    (txInfo : TxInfo) : CheckTxOutcome × State × List Request :=
  if s.config.maxTxBytes < tx.length then
    (.errTxTooLarge s.config.maxTxBytes tx.length, s, [])
  else if !(preCheckRun preCheck tx) then (.errPreCheck, s, [])
  else if s.proxyError then (.errProxy, s, [])
  else
    let pr := cachePush s.config.cacheSize s.cache tx
    if pr.2 = false then
      match getOrSetPeerByTxHash s.storeTxs tx txInfo.senderID with
      | (wtxOpt, added, txs1) =>
        if wtxOpt.isSome && added then
          (.errTxInCache, { s with cache := pr.1, storeTxs := txs1 }, [])
        else (.okCached, { s with cache := pr.1, storeTxs := txs1 }, [])
    else
      if s.dispatchError then
        (.errDispatch, { s with cache := cacheRemove pr.1 tx }, [])
      else (.okDispatched, { s with cache := pr.1 }, [Request.checkTx tx false])

/-- `TxMempool.initTxCallback` (together with the surrounding `SetCallback`
closure in `CheckTx`, whose first action panics when the recheck cursor is
active): on an OK code and passing post-check, try `canAddTx`; when the
mempool is full ask for an eviction candidate strictly below the response
priority, rejecting the newcomer (and removing its hash from the cache)
when there is none and evicting the candidate otherwise; then set the
response priority and sender on the transaction, insert it, and notify
availability.  On a bad transaction, record the failure and drop the hash
from the cache unless `KeepInvalidTxsInCache`.  `none` models a panic. -/
def initTxCallback (s : State) (postCheck : Option (TxKey → ResponseCheckTx → Bool))
    (wtx : WrappedTx) (res : Response) (txInfo : TxInfo) :
    Option (State × List Event) :=
  if s.recheckCursor.isSome then none
  else
    match res with
    | Response.checkTx c =>
      if c.code = 0 ∧ postCheckRun postCheck wtx.tx c then
        let pre : Option (State × List Event) :=
          match canAddTx s wtx with
          | none => some (s, [])
          | some _ =>
            match getEvictableTx s c.priority with
            | none => none
            | some toEvict => some (removeTx s toEvict true, [Event.evicted toEvict])
        match pre with
        | none =>
          some ({ s with cache := cacheRemove s.cache wtx.tx }, [Event.rejected])
        | some (s1, evs) =>
          let wtx1 := { wtx with priority := c.priority, sender := c.sender }
          match notifyTxsAvailable (insertTx s1 wtx1) with
          | none => none
          | some (s2, _) => some (s2, evs)
      else
        some
          (if s.config.keepInvalidTxsInCache then s
           else { s with cache := cacheRemove s.cache wtx.tx }, [Event.failed])
    | _ => some (s, [])

/-- `TxMempool.defaultTxCallback`: ignored when no recheck is in progress
or the response is not the `CheckTx` variant.  Otherwise the response must
match the cursor transaction (mismatch panics); a tombstoned cursor
transaction is skipped; on OK the priority is updated in place, otherwise
the transaction is removed (after the cursor-corruption guard).  The
cursor then advances, and reaching the end fires the availability
notification when the mempool is non-empty.  `none` models a panic. -/
def defaultTxCallback (s : State)
    (postCheck : Option (TxKey → ResponseCheckTx → Bool)) (req : Request)
    (res : Response) : Option State :=
  match s.recheckCursor with
  | none => some s
  | some cur =>
    match res with
    | Response.checkTx c =>
      match s.gossip.get? cur with
      | none => none
      | some node =>
        if req.reqTx ≠ node.key then none
        else
          let step : Option State :=
            if isTxRemoved s node.key then some s
            else if c.code = 0 ∧ postCheckRun postCheck node.key c then
              let txs := s.storeTxs.map
                (fun w => if w.tx = node.key then { w with priority := c.priority } else w)
              some { s with storeTxs := txs }
            else
              match getTx s node.key with
              | none => none
              | some w =>
                if w.gossipPos ≠ cur then none
                else some (removeTx s w (!s.config.keepInvalidTxsInCache))
          match step with
          | none => none
          | some s1 =>
            let cursor2 : Option Nat :=
              if some cur = s.recheckEnd then none else some (cur + 1)
            let s2 := { s1 with recheckCursor := cursor2 }
            if cursor2 = none ∧ 0 < s2.size then
              match notifyTxsAvailable s2 with
              | none => none
              | some (s3, _) => some s3
            else some s2
    | _ => some s

/-- The index of the last live gossip node (`gossipIndex.Back()`). -/
def lastLiveIdx (l : List GossipEl) : Option Nat :=
  match l.reverse.findIdx? (fun e => !e.removed) with
  | none => none
  | some i => some (l.length - 1 - i)

/-- `TxMempool.updateReCheckTxs`: panics (`none`) on an empty mempool;
otherwise set the recheck cursor to the gossip front and the recheck end
to the gossip back, dispatch a recheck `CheckTxAsync` for every gossip
transaction that is not tombstoned, and finish with a `FlushAsync`. -/
def updateReCheckTxs (s : State) : Option (State × List Request) :=
  if s.size = 0 then none
  else
    let cursor := s.gossip.findIdx? (fun e => !e.removed)
    let endIdx := lastLiveIdx s.gossip
    let reqs := (s.gossip.filter (fun e => !e.removed)).filterMap
      (fun e =>
        if isTxRemoved s e.key then none else some (Request.checkTx e.key true))
    some ({ s with recheckCursor := cursor, recheckEnd := endIdx },
      reqs ++ [Request.flush])

/-- Modelled from the spec: the purge loop of `Update` (`Update`'s body is
a `panic("not implemented")` stub in the source): for each committed
transaction in order, insert its hash into the cache and, if resident,
remove it with `removeFromCache = false`. -/
def purgeCommitted : State → List TxKey → State
  | s, [] => s
  | s, k :: ks =>
    let s1 := { s with cache := (cachePush s.config.cacheSize s.cache k).1 }
    purgeCommitted
      (match getTx s1 k with
        | some w => removeTx s1 w false
        | none => s1) ks

/-- Modelled from the spec: `TxMempool.Update` (its body is a
`panic("not implemented")` stub in the source): advance the height, reset
the notified flag, purge every committed transaction, and, if
transactions remain and recheck is enabled, run `updateReCheckTxs` (which
is implemented in the source).  Returned requests are the recheck
dispatches. -/
def Update (s : State) (blockHeight : Int) (blockTxs : List TxKey) :
    Option (State × List Request) :=
  let s0 := { s with height := blockHeight, notifiedTxsAvailable := false }
  let s1 := purgeCommitted s0 blockTxs
  if 0 < s1.size ∧ s1.config.recheck then updateReCheckTxs s1
  else some (s1, [])

/-- A sequence of `notifyTxsAvailable` calls (as they occur between two
consecutive `Update` calls), counting how many actually sent on the
channel; `none` when any call panics. -/
def notifySeq : State → Nat → Option (State × Nat)
  | s, 0 => some (s, 0)
  | s, n + 1 =>
    match notifyTxsAvailable s with
    | none => none
    | some (s1, sent) =>
      match notifySeq s1 n with
      | none => none
      | some (s2, c) => some (s2, (if sent then 1 else 0) + c)

/-! ## Invariants -/

/-- The keys of the resident transactions of the store. -/
def storeKeys (s : State) : List TxKey := s.storeTxs.map (fun w => w.tx)

/-- The keys of the live (non-removed) gossip nodes, in gossip order. -/
def liveKeys (s : State) : List TxKey :=
  (s.gossip.filter (fun e => !e.removed)).map (fun e => e.key)

/-- Tri-index consistency: a transaction key is in the store iff it is in
the priority index iff it has a live gossip node. -/
def triIndexConsistent (s : State) : Prop :=
  ∀ k : TxKey, (k ∈ storeKeys s ↔ k ∈ s.priorityIndex)
    ∧ (k ∈ storeKeys s ↔ k ∈ liveKeys s)

/-- Byte accounting: `sizeBytes` is the sum of the payload lengths of the
resident transactions. -/
def byteAccounting (s : State) : Prop :=
  s.sizeBytes = (s.storeTxs.map (fun w => (w.txSize : Int))).sum

/-- Store well-formedness: no resident transaction is tombstoned. -/
def storeWF (s : State) : Prop := ∀ w ∈ s.storeTxs, w.tx ∉ s.storeRemoved

/-! ## Helper lemmas -/

/-- The projections of `insertTx` on a key that is not yet resident (for
a resident key the store map assignment overwrites instead). -/
theorem insertTx_proj (s : State) (wtx : WrappedTx)
    (hfresh : wtx.tx ∉ storeKeys s) :
    (insertTx s wtx).storeTxs
        = s.storeTxs ++ [{ wtx with gossipPos := s.gossip.length }]
    ∧ (insertTx s wtx).priorityIndex = s.priorityIndex ++ [wtx.tx]
    ∧ (insertTx s wtx).gossip = s.gossip ++ [GossipEl.mk wtx.tx false]
    ∧ (insertTx s wtx).sizeBytes = s.sizeBytes + wtx.txSize
    ∧ (insertTx s wtx).storeRemoved
        = s.storeRemoved.filter (fun j => j ≠ wtx.tx)
    ∧ (insertTx s wtx).cache = s.cache
    ∧ (insertTx s wtx).height = s.height
    ∧ (insertTx s wtx).config = s.config
    ∧ (insertTx s wtx).notifiedTxsAvailable = s.notifiedTxsAvailable
    ∧ (insertTx s wtx).recheckCursor = s.recheckCursor
    ∧ (insertTx s wtx).recheckEnd = s.recheckEnd := by
  have hany : s.storeTxs.any (fun x => x.tx = wtx.tx) = false := by
    rw [List.any_eq_false]
    intro x hx
    simp only [decide_eq_true_eq]
    intro hEq
    exact hfresh (hEq ▸ List.mem_map_of_mem _ hx)
  refine ⟨?_, rfl, rfl, rfl, rfl, rfl, rfl, rfl, rfl, rfl, rfl⟩
  simp [insertTx, storeSetTx, hany]

/-- `removeTx` on an already tombstoned key is a no-op. -/
theorem removeTx_noop (s : State) (wtx : WrappedTx) (rfc : Bool)
    (h : isTxRemoved s wtx.tx = true) : removeTx s wtx rfc = s := by
  unfold removeTx
  rw [if_pos h]

/-- The projections of `removeTx` on a non-tombstoned key. -/
theorem removeTx_proj (s : State) (wtx : WrappedTx) (rfc : Bool)
    (h : isTxRemoved s wtx.tx = false) :
    (removeTx s wtx rfc).storeTxs = s.storeTxs.filter (fun x => x.tx ≠ wtx.tx)
    ∧ (removeTx s wtx rfc).priorityIndex
        = s.priorityIndex.filter (fun j => j ≠ wtx.tx)
    ∧ (removeTx s wtx rfc).gossip = s.gossip.map
        (fun e => if e.key = wtx.tx then { e with removed := true } else e)
    ∧ (removeTx s wtx rfc).sizeBytes = s.sizeBytes - wtx.txSize
    ∧ (removeTx s wtx rfc).storeRemoved = wtx.tx :: s.storeRemoved
    ∧ (removeTx s wtx rfc).height = s.height
    ∧ (removeTx s wtx rfc).config = s.config
    ∧ (removeTx s wtx rfc).notifiedTxsAvailable = s.notifiedTxsAvailable
    ∧ (removeTx s wtx rfc).txsAvailableEnabled = s.txsAvailableEnabled
    ∧ (removeTx s wtx rfc).txsAvailableFull = s.txsAvailableFull
    ∧ (removeTx s wtx rfc).recheckCursor = s.recheckCursor
    ∧ (removeTx s wtx rfc).recheckEnd = s.recheckEnd
    ∧ (rfc = false → (removeTx s wtx rfc).cache = s.cache) := by
  unfold removeTx
  rw [if_neg (by simp [h])]
  cases rfc <;> simp [storeRemoveTx]

/-- Filtering out one key from the store removes exactly that key from the
key view. -/
theorem mem_storeKeys_filter (l : List WrappedTx) (t k : TxKey) :
    k ∈ (l.filter (fun x => x.tx ≠ t)).map (fun w => w.tx)
      ↔ k ∈ l.map (fun w => w.tx) ∧ k ≠ t := by
  simp only [List.mem_map, List.mem_filter, decide_not, Bool.not_eq_true',
    decide_eq_false_iff_not]
  constructor
  · rintro ⟨x, ⟨hx, hne⟩, rfl⟩
    exact ⟨⟨x, hx, rfl⟩, hne⟩
  · rintro ⟨⟨x, hx, rfl⟩, hne⟩
    exact ⟨x, ⟨hx, hne⟩, rfl⟩

/-- Marking the nodes of one key removed takes exactly that key out of
the live-key view of the gossip list. -/
theorem mem_liveKeys_mark (g : List GossipEl) (t k : TxKey) :
    k ∈ ((g.map (fun e => if e.key = t then { e with removed := true }
            else e)).filter (fun e => !e.removed)).map (fun e => e.key)
      ↔ k ∈ (g.filter (fun e => !e.removed)).map (fun e => e.key) ∧ k ≠ t := by
  induction g with
  | nil => simp
  | cons e g ih =>
    by_cases he : e.key = t <;> cases hr : e.removed <;>
      simp [he, hr, List.filter_cons, ih] <;> aesop

/-- `insertTx` of a fresh key preserves tri-index consistency. -/
theorem insertTx_tri (s : State) (wtx : WrappedTx)
    (hfresh : wtx.tx ∉ storeKeys s)
    (h : triIndexConsistent s) : triIndexConsistent (insertTx s wtx) := by
  intro k
  have h1 := (h k).1
  have h2 := (h k).2
  obtain ⟨hst, hpi, hg, _⟩ := insertTx_proj s wtx hfresh
  simp only [storeKeys, liveKeys] at h1 h2 ⊢
  rw [hst, hpi, hg]
  simp only [List.map_append, List.filter_append, List.mem_append]
  simp at h1 h2 ⊢
  constructor
  · constructor
    · rintro (hx | hx)
      · exact Or.inl (h1.mp hx)
      · exact Or.inr hx
    · rintro (hx | hx)
      · exact Or.inl (h1.mpr hx)
      · exact Or.inr hx
  · constructor
    · rintro (hx | hx)
      · exact Or.inl (h2.mp hx)
      · exact Or.inr hx
    · rintro (hx | hx)
      · exact Or.inl (h2.mpr hx)
      · exact Or.inr hx

/-- `removeTx` preserves tri-index consistency. -/
theorem removeTx_tri (s : State) (wtx : WrappedTx) (rfc : Bool)
    (h : triIndexConsistent s) : triIndexConsistent (removeTx s wtx rfc) := by
  cases hrem : isTxRemoved s wtx.tx with
  | true => rw [removeTx_noop s wtx rfc hrem]; exact h
  | false =>
    intro k
    have h1 := (h k).1
    have h2 := (h k).2
    obtain ⟨hst, hpi, hg, _⟩ := removeTx_proj s wtx rfc hrem
    simp only [storeKeys, liveKeys] at h1 h2 ⊢
    rw [hst, hpi, hg]
    constructor
    · rw [mem_storeKeys_filter, List.mem_filter]
      simp only [decide_not, Bool.not_eq_true', decide_eq_false_iff_not]
      exact and_congr h1 Iff.rfl
    · rw [mem_storeKeys_filter, mem_liveKeys_mark]
      exact and_congr h2 Iff.rfl

/-- `insertTx` of a fresh key adds the payload length to the byte
accounting. -/
theorem insertTx_acct (s : State) (wtx : WrappedTx)
    (hfresh : wtx.tx ∉ storeKeys s)
    (h : byteAccounting s) : byteAccounting (insertTx s wtx) := by
  obtain ⟨hst, _, _, hsz, _⟩ := insertTx_proj s wtx hfresh
  unfold byteAccounting at h ⊢
  rw [hst, hsz, List.map_append, List.sum_append, h]
  simp [WrappedTx.txSize]

/-- `removeTx` subtracts the payload length from the byte accounting when
the removed transaction is resident and keys are unambiguous. -/
theorem removeTx_acct (s : State) (wtx : WrappedTx) (rfc : Bool)
    (hrem : isTxRemoved s wtx.tx = false) (hmem : wtx ∈ s.storeTxs)
    (hnd : (storeKeys s).Nodup) (h : byteAccounting s) :
    byteAccounting (removeTx s wtx rfc) := by
  obtain ⟨hst, _, _, hsz, _⟩ := removeTx_proj s wtx rfc hrem
  unfold byteAccounting at h ⊢
  rw [hst, hsz, h]
  obtain ⟨l1, l2, heq⟩ := List.append_of_mem hmem
  rw [heq]
  simp only [storeKeys, heq, List.map_append, List.map_cons] at hnd
  have hd := List.disjoint_of_nodup_append hnd
  have F1 : ∀ a ∈ l1, a.tx ≠ wtx.tx := by
    intro a ha hEq
    exact hd (List.mem_map_of_mem _ ha) (by rw [hEq]; exact List.mem_cons_self _ _)
  have F2 : ∀ a ∈ l2, a.tx ≠ wtx.tx := by
    intro a ha hEq
    have hn2 := (List.nodup_append.mp hnd).2.1
    rw [List.nodup_cons] at hn2
    exact hn2.1 (hEq ▸ List.mem_map_of_mem _ ha)
  have hl1 : l1.filter (fun x => x.tx ≠ wtx.tx) = l1 :=
    List.filter_eq_self.mpr (fun a ha => by simpa using F1 a ha)
  have hl2 : l2.filter (fun x => x.tx ≠ wtx.tx) = l2 :=
    List.filter_eq_self.mpr (fun a ha => by simpa using F2 a ha)
  rw [List.filter_append, List.filter_cons, hl1, hl2]
  simp [List.sum_append]
  ring

/-- The last `n` entries of a list (the most recent end of the LRU
cache). -/
def lastN (n : Nat) (l : List TxKey) : List TxKey := l.drop (l.length - n)

theorem lastN_suffix (n : Nat) (l : List TxKey) : lastN n l <:+ l :=
  List.drop_suffix _ _

theorem lastN_length_le (n : Nat) (l : List TxKey) : (lastN n l).length ≤ n := by
  unfold lastN
  rw [List.length_drop]
  omega

theorem mem_of_mem_lastN {j : TxKey} {m : Nat} {l : List TxKey}
    (h : j ∈ lastN m l) : j ∈ l := List.mem_of_mem_drop h

/-- A member of a suffix of length at most `m` lies in the last `m`
entries. -/
theorem mem_of_suffix_short {t l : List TxKey} {m : Nat} (h : t <:+ l)
    (hlen : t.length ≤ m) {j : TxKey} (hj : j ∈ t) : j ∈ lastN m l := by
  obtain ⟨u, rfl⟩ := h
  unfold lastN
  rw [List.drop_append_eq_append_drop]
  have h0 : (u ++ t).length - m - u.length = 0 := by
    simp only [List.length_append]
    omega
  rw [h0, List.drop_zero]
  exact List.mem_append_right _ hj

/-- Appending one entry keeps the last `m` entries among the last
`m + 1`. -/
theorem lastN_append_one {j : TxKey} {m : Nat} {X : List TxKey} (k : TxKey)
    (h : j ∈ lastN m X ∨ j = k) : j ∈ lastN (m + 1) (X ++ [k]) := by
  have hsuf : lastN m X ++ [k] <:+ X ++ [k] := by
    obtain ⟨u, hu⟩ := lastN_suffix m X
    exact ⟨u, by rw [← List.append_assoc, hu]⟩
  apply mem_of_suffix_short hsuf
    (by simpa using Nat.add_le_add_right (lastN_length_le m X) 1)
  rcases h with h | rfl
  · exact List.mem_append_left _ h
  · exact List.mem_append_right _ (by simp)

/-- The last `m` entries survive dropping the head when the list is
longer than `m`. -/
theorem suffix_mem_lastN_tail {t c : List TxKey} {m : Nat} (h : t <:+ c)
    (hlen : t.length ≤ m) (hm : m < c.length) {j : TxKey} (hj : j ∈ t) :
    j ∈ lastN m c.tail := by
  obtain ⟨u, rfl⟩ := h
  cases u with
  | nil =>
    simp only [List.nil_append] at hm
    exact False.elim (by omega)
  | cons a u2 =>
    show j ∈ lastN m (u2 ++ t)
    exact mem_of_suffix_short ⟨u2, rfl⟩ hlen hj

theorem lastN_tail {j : TxKey} {m : Nat} {c : List TxKey}
    (hm : m < c.length) (h : j ∈ lastN m c) : j ∈ lastN m c.tail :=
  suffix_mem_lastN_tail (lastN_suffix m c) (lastN_length_le m c) hm h

/-- One LRU push keeps every previously tracked recent entry recent and
puts the pushed key at the back. -/
theorem cachePush_lastN (size : Nat) (hpos : 0 < size) (c : List TxKey)
    (k : TxKey) (pr : List TxKey) (hlen : pr.length + 1 ≤ size)
    (hinv : ∀ j ∈ pr, j ∈ lastN pr.length c) :
    ∀ j, j ∈ pr ∨ j = k →
      j ∈ lastN (pr.length + 1) (cachePush size c k).1 := by
  intro j hj
  unfold cachePush
  rw [if_neg (Nat.pos_iff_ne_zero.mp hpos)]
  by_cases hk : c.contains k = true
  · rw [if_pos hk]
    dsimp only
    apply lastN_append_one
    rcases hj with hj | rfl
    · by_cases hjk : j = k
      · exact Or.inr hjk
      · left
        have h1 := hinv j hj
        have h3 : (lastN pr.length c).filter (fun x => x ≠ k)
            <:+ c.filter (fun x => x ≠ k) := (lastN_suffix _ _).filter _
        have h4 : j ∈ (lastN pr.length c).filter (fun x => x ≠ k) :=
          List.mem_filter.mpr ⟨h1, by simp [hjk]⟩
        exact mem_of_suffix_short h3
          (le_trans (List.length_filter_le _ _) (lastN_length_le _ _)) h4
    · exact Or.inr rfl
  · rw [if_neg hk]
    by_cases hfull : size ≤ c.length
    · rw [if_pos hfull]
      dsimp only
      apply lastN_append_one
      rcases hj with hj | rfl
      · exact Or.inl (lastN_tail (by omega) (hinv j hj))
      · exact Or.inr rfl
    · rw [if_neg hfull]
      dsimp only
      apply lastN_append_one
      rcases hj with hj | rfl
      · exact Or.inl (hinv j hj)
      · exact Or.inr rfl

/-- Folding LRU pushes of at most `size` keys leaves every pushed key in
the cache. -/
theorem fold_cachePush_mem (size : Nat) (hpos : 0 < size) :
    ∀ (ks : List TxKey) (c pr : List TxKey),
      pr.length + ks.length ≤ size →
      (∀ j ∈ pr, j ∈ lastN pr.length c) →
      ∀ j, j ∈ pr ∨ j ∈ ks →
        j ∈ ks.foldl (fun acc k => (cachePush size acc k).1) c := by
  intro ks
  induction ks with
  | nil =>
    intro c pr hlen hinv j hj
    rcases hj with hj | hj
    · exact mem_of_mem_lastN (hinv j hj)
    · exact absurd hj (by simp)
  | cons k ks ih =>
    intro c pr hlen hinv j hj
    simp only [List.foldl_cons]
    apply ih (cachePush size c k).1 (pr ++ [k])
    · simp at hlen ⊢
      omega
    · intro j2 hj2
      have hstep := cachePush_lastN size hpos c k pr
        (by simp at hlen; omega) hinv j2
        (by simpa [List.mem_append] using hj2)
      simpa [List.length_append] using hstep
    · rcases hj with hj | hj
      · exact Or.inl (List.mem_append_left _ hj)
      · rcases List.mem_cons.mp hj with rfl | hj
        · exact Or.inl (List.mem_append_right _ (by simp))
        · exact Or.inr hj

/-- The purge loop of `Update` preserves store well-formedness and
tri-index consistency, removes exactly the committed keys from the
residents, leaves height, notified flag and config alone, and evolves the
cache by the fold of LRU pushes of the committed keys. -/
theorem purgeCommitted_facts :
    ∀ (ks : List TxKey) (s : State), storeWF s → triIndexConsistent s →
      storeWF (purgeCommitted s ks)
      ∧ triIndexConsistent (purgeCommitted s ks)
      ∧ (∀ w, w ∈ (purgeCommitted s ks).storeTxs
          ↔ (w ∈ s.storeTxs ∧ w.tx ∉ ks))
      ∧ (purgeCommitted s ks).height = s.height
      ∧ (purgeCommitted s ks).notifiedTxsAvailable = s.notifiedTxsAvailable
      ∧ (purgeCommitted s ks).config = s.config
      ∧ (purgeCommitted s ks).cache
          = ks.foldl (fun acc k => (cachePush s.config.cacheSize acc k).1)
              s.cache := by
  intro ks
  induction ks with
  | nil =>
    intro s hwf hinv
    exact ⟨hwf, hinv, fun w => by simp [purgeCommitted], rfl, rfl, rfl, rfl⟩
  | cons k ks ih =>
    intro s hwf hinv
    simp only [purgeCommitted]
    cases hget :
        getTx { s with cache := (cachePush s.config.cacheSize s.cache k).1 }
          k with
    | none =>
      have hnone : ∀ x ∈ s.storeTxs, x.tx ≠ k := by
        intro x hx
        simpa using List.find?_eq_none.mp hget x hx
      obtain ⟨IH1, IH2, IH3, IH4, IH5, IH6, IH7⟩ :=
        ih { s with cache := (cachePush s.config.cacheSize s.cache k).1 }
          hwf hinv
      refine ⟨IH1, IH2, ?_, IH4, IH5, IH6, ?_⟩
      · intro w
        rw [IH3 w]
        constructor
        · rintro ⟨hw, hks⟩
          refine ⟨hw, ?_⟩
          simp only [List.mem_cons, not_or]
          exact ⟨hnone w hw, hks⟩
        · rintro ⟨hw, hks⟩
          exact ⟨hw, fun hmem => hks (List.mem_cons_of_mem _ hmem)⟩
      · rw [List.foldl_cons]
        exact IH7
    | some v =>
      have hv_mem : v ∈ s.storeTxs := List.mem_of_find?_eq_some hget
      have hv_tx : v.tx = k := by simpa using List.find?_some hget
      have hrem : isTxRemoved
          { s with cache := (cachePush s.config.cacheSize s.cache k).1 }
            v.tx = false := by
        simpa [isTxRemoved] using hwf v hv_mem
      obtain ⟨hst, hpi, hg, hsz, hsrm, hh, hcfg, hnot, _, _, _, _, hcache⟩ :=
        removeTx_proj
          { s with cache := (cachePush s.config.cacheSize s.cache k).1 }
          v false hrem
      have hwf2 : storeWF (removeTx
          { s with cache := (cachePush s.config.cacheSize s.cache k).1 }
          v false) := by
        intro w hw
        rw [hst] at hw
        obtain ⟨hw1, hw2⟩ := List.mem_filter.mp hw
        rw [hsrm]
        simp only [decide_not, Bool.not_eq_true', decide_eq_false_iff_not]
          at hw2
        intro hmem
        rcases List.mem_cons.mp hmem with hEq | hmem2
        · exact hw2 hEq
        · exact hwf w hw1 hmem2
      have hinv2 := removeTx_tri
        { s with cache := (cachePush s.config.cacheSize s.cache k).1 }
        v false hinv
      obtain ⟨IH1, IH2, IH3, IH4, IH5, IH6, IH7⟩ :=
        ih (removeTx { s with cache := (cachePush s.config.cacheSize s.cache k).1 }
          v false) hwf2 hinv2
      refine ⟨IH1, IH2, ?_, ?_, ?_, ?_, ?_⟩
      · intro w
        rw [IH3 w, hst]
        constructor
        · rintro ⟨hw, hks⟩
          obtain ⟨hw1, hw2⟩ := List.mem_filter.mp hw
          simp only [decide_not, Bool.not_eq_true', decide_eq_false_iff_not]
            at hw2
          refine ⟨hw1, ?_⟩
          simp only [List.mem_cons, not_or]
          exact ⟨by rw [← hv_tx]; exact hw2, hks⟩
        · rintro ⟨hw1, hks⟩
          simp only [List.mem_cons, not_or] at hks
          refine ⟨List.mem_filter.mpr ⟨hw1, ?_⟩, hks.2⟩
          simp [hv_tx, hks.1]
      · rw [IH4, hh]
      · rw [IH5, hnot]
      · rw [IH6, hcfg]
      · rw [List.foldl_cons, IH7, hcfg, hcache rfl]

/-- On a non-empty mempool, `updateReCheckTxs` succeeds, only sets the
recheck cursors, and dispatches a recheck request for every live,
non-tombstoned gossip transaction followed by a flush. -/
theorem updateReCheckTxs_spec (s : State) (hsz : ¬ s.size = 0) :
    ∃ s2 reqs, updateReCheckTxs s = some (s2, reqs)
      ∧ s2.storeTxs = s.storeTxs ∧ s2.cache = s.cache
      ∧ s2.height = s.height
      ∧ s2.notifiedTxsAvailable = s.notifiedTxsAvailable
      ∧ s2.config = s.config ∧ s2.gossip = s.gossip
      ∧ Request.flush ∈ reqs
      ∧ (∀ k ∈ liveKeys s, isTxRemoved s k = false →
          Request.checkTx k true ∈ reqs) := by
  unfold updateReCheckTxs
  rw [if_neg hsz]
  refine ⟨_, _, rfl, rfl, rfl, rfl, rfl, rfl, rfl, ?_, ?_⟩
  · exact List.mem_append_right _ (by simp)
  · intro k hk hrm
    apply List.mem_append_left
    rcases List.mem_map.mp hk with ⟨e, he, rfl⟩
    exact List.mem_filterMap.mpr ⟨e, he, by simp [hrm]⟩

theorem minStep_eq_some {acc : Option WrappedTx} {w x : WrappedTx}
    (h : minStep acc w = some x) : x = w ∨ acc = some x := by
  cases acc with
  | none => exact Or.inl (Option.some.inj h).symm
  | some b =>
    simp only [minStep] at h
    split at h
    · exact Or.inl (Option.some.inj h).symm
    · exact Or.inr h

theorem foldl_minStep_mem :
    ∀ (l : List WrappedTx) (acc : Option WrappedTx) (x : WrappedTx),
      l.foldl minStep acc = some x → acc = some x ∨ x ∈ l := by
  intro l
  induction l with
  | nil => intro acc x h; exact Or.inl h
  | cons a as ih =>
    intro acc x h
    rcases ih (minStep acc a) x h with h2 | h2
    · rcases minStep_eq_some h2 with rfl | h3
      · exact Or.inr (by simp)
      · exact Or.inl h3
    · exact Or.inr (List.mem_cons_of_mem a h2)

theorem minByPriority_mem {l : List WrappedTx} {x : WrappedTx}
    (h : minByPriority l = some x) : x ∈ l := by
  rcases foldl_minStep_mem l none x h with h2 | h2
  · exact absurd h2 (by simp)
  · exact h2

/-- An eviction candidate has priority strictly below the incoming
priority. -/
theorem getEvictableTx_lt {s : State} {p : Int} {v : WrappedTx}
    (h : getEvictableTx s p = some v) : v.priority < p := by
  have hv := minByPriority_mem h
  exact of_decide_eq_true (List.mem_filter.mp hv).2

/-- An eviction candidate is a resident transaction of the store. -/
theorem getEvictableTx_resident {s : State} {p : Int} {v : WrappedTx}
    (h : getEvictableTx s p = some v) : v ∈ s.storeTxs := by
  have hv := minByPriority_mem h
  have hv2 := (List.mem_filter.mp hv).1
  rcases List.mem_filterMap.mp hv2 with ⟨k, _, hk⟩
  exact List.mem_of_find?_eq_some hk

/-- When no resident transaction has priority strictly below `p`, there is
no eviction candidate. -/
theorem getEvictableTx_none {s : State} {p : Int}
    (h : ∀ w ∈ s.storeTxs, ¬ w.priority < p) : getEvictableTx s p = none := by
  unfold getEvictableTx
  have hnil :
      (s.priorityIndex.filterMap (fun k => getTx s k)).filter
        (fun w => w.priority < p) = [] := by
    apply List.filter_eq_nil_iff.mpr
    intro w hw
    rcases List.mem_filterMap.mp hw with ⟨k, _, hk⟩
    have hmem : w ∈ s.storeTxs := List.mem_of_find?_eq_some hk
    simpa using h w hmem
  rw [hnil]
  rfl

/-- In a sequence of `notifyTxsAvailable` calls, at most one send occurs:
a send requires the enabled flag, a clear notified flag, and a free
channel buffer, and every call leaves the notified flag set once a send
has happened. -/
theorem notifySeq_props :
    ∀ (n : Nat) (s s' : State) (c : Nat), notifySeq s n = some (s', c) →
      c ≤ 1 ∧ (s.txsAvailableEnabled = false → c = 0)
      ∧ (s.notifiedTxsAvailable = true → c = 0)
      ∧ (s.txsAvailableFull = true → c = 0) := by
  intro n
  induction n with
  | zero =>
    intro s s' c h
    simp only [notifySeq, Option.some_inj, Prod.mk.injEq] at h
    obtain ⟨rfl, rfl⟩ := h
    simp
  | succ n ih =>
    intro s s' c h
    simp only [notifySeq] at h
    cases h1 : notifyTxsAvailable s with
    | none => rw [h1] at h; exact absurd h (by simp)
    | some p =>
      obtain ⟨s1, sent⟩ := p
      rw [h1] at h
      dsimp only at h
      cases h2 : notifySeq s1 n with
      | none => rw [h2] at h; exact absurd h (by simp)
      | some q =>
        obtain ⟨s2, c1⟩ := q
        rw [h2] at h
        rw [Option.some_inj, Prod.mk.injEq] at h
        obtain ⟨rfl, rfl⟩ := h
        have IH := ih s1 s2 c1 h2
        unfold notifyTxsAvailable at h1
        split at h1
        · exact absurd h1 (by simp)
        · split at h1
          · rename_i hsz hcond
            rw [Bool.and_eq_true, Bool.not_eq_true'] at hcond
            rw [Option.some_inj, Prod.mk.injEq] at h1
            obtain ⟨rfl, rfl⟩ := h1
            have hc1 : c1 = 0 := IH.2.2.1 rfl
            subst hc1
            refine ⟨?_, ?_, ?_, ?_⟩
            · cases hfull : s.txsAvailableFull <;> simp [hfull]
            · intro he; rw [he] at hcond; exact absurd hcond.1 (by simp)
            · intro hn; rw [hn] at hcond; exact absurd hcond.2 (by simp)
            · intro hf; simp [hf]
          · rw [Option.some_inj, Prod.mk.injEq] at h1
            obtain ⟨rfl, rfl⟩ := h1
            simpa using IH

/-! ## Example states used by the witnesses -/

/-- A small configuration: capacity 2 transactions / 100 bytes, per-tx cap
10 bytes, cache of 5 hashes, invalid txs dropped from the cache, recheck
enabled. -/
def exCfg : MempoolConfig :=
  { size := 2, maxTxsBytes := 100, maxTxBytes := 10, cacheSize := 5,
    keepInvalidTxsInCache := false, recheck := true }

/-- A freshly constructed, empty mempool with `exCfg` and the
txs-available channel enabled. -/
def exEmpty : State :=
  { config := exCfg, height := 0, sizeBytes := 0, txsAvailableEnabled := true,
    txsAvailableFull := false, notifiedTxsAvailable := false,
    proxyError := false, dispatchError := false, cache := [], storeTxs := [],
    storeRemoved := [], priorityIndex := [], gossip := [],
    recheckCursor := none, recheckEnd := none }

/-- The wrapped transaction `[1, 2]` as created by the `CheckTx` response
closure (priority and sender are only set by the admission callback). -/
def exWtxA : WrappedTx :=
  { tx := [1, 2], priority := 0, sender := "", timestamp := 3, peers := [],
    gossipPos := 0 }

/-- A mempool holding the single resident transaction `[1, 2]` with
priority 5, as left by an admission of `exWtxA`. -/
def exOne : State :=
  { config := exCfg, height := 0, sizeBytes := 2, txsAvailableEnabled := true,
    txsAvailableFull := true, notifiedTxsAvailable := true,
    proxyError := false, dispatchError := false, cache := [[1, 2]],
    storeTxs := [{ tx := [1, 2], priority := 5, sender := "a", timestamp := 3,
                   peers := [], gossipPos := 0 }],
    storeRemoved := [], priorityIndex := [[1, 2]],
    gossip := [GossipEl.mk [1, 2] false],
    recheckCursor := none, recheckEnd := none }

/-- `exOne` in the middle of a recheck: the cursor sits on the gossip
node of `[1, 2]` and the recheck end is a later node `[7]`. -/
def exRecheck : State :=
  { exOne with
    sizeBytes := 3,
    storeTxs := exOne.storeTxs ++
      [{ tx := [7], priority := 1, sender := "b", timestamp := 4, peers := [],
         gossipPos := 1 }],
    priorityIndex := [[1, 2], [7]],
    gossip := [GossipEl.mk [1, 2] false, GossipEl.mk [7] false],
    recheckCursor := some 0, recheckEnd := some 1 }

/-- A resident with priority 1, the eviction victim of the C1 witness. -/
def exV1 : WrappedTx :=
  { tx := [5], priority := 1, sender := "a", timestamp := 1, peers := [],
    gossipPos := 0 }

/-- A resident with priority 2. -/
def exV2 : WrappedTx :=
  { tx := [6], priority := 2, sender := "b", timestamp := 2, peers := [],
    gossipPos := 1 }

/-- A full mempool (capacity 2) holding `exV1` and `exV2`, with the
newcomer `[9]` already pushed on the cache by `CheckTx`. -/
def exLow : State :=
  { config := exCfg, height := 0, sizeBytes := 2, txsAvailableEnabled := true,
    txsAvailableFull := true, notifiedTxsAvailable := true,
    proxyError := false, dispatchError := false,
    cache := [[5], [6], [9]], storeTxs := [exV1, exV2], storeRemoved := [],
    priorityIndex := [[5], [6]],
    gossip := [GossipEl.mk [5] false, GossipEl.mk [6] false],
    recheckCursor := none, recheckEnd := none }

/-- The newcomer transaction `[9]` as built by the `CheckTx` closure. -/
def exWtx9 : WrappedTx :=
  { tx := [9], priority := 0, sender := "", timestamp := 7, peers := [],
    gossipPos := 0 }

/-- An OK response with priority 3 for the newcomer. -/
def exC3 : ResponseCheckTx := { code := 0, priority := 3, sender := "c" }

/-- The admission outcome of `exWtx9` against `exLow` (an eviction of
`exV1` followed by the insertion of the newcomer). -/
def exEvictOut : State × List Event :=
  (initTxCallback exLow none exWtx9 (Response.checkTx exC3)
      (TxInfo.mk 1)).getD (exLow, [])

/-- A full mempool (capacity 2) whose residents have priorities 5 and 6,
so that a priority-3 newcomer finds no eviction candidate. -/
def exHigh : State :=
  { exLow with
    storeTxs := [{ exV1 with priority := 5 }, { exV2 with priority := 6 }] }

/-- `exOne` at the start of a height: channel enabled and empty, not yet
notified. -/
def exReady : State :=
  { exOne with notifiedTxsAvailable := false, txsAvailableFull := false }

/-- Two consecutive availability notifications on `exReady`. -/
def exNotifyOut : State × Nat := (notifySeq exReady 2).getD (exReady, 0)

/-- The state reached from the empty mempool by admitting `[1, 2]` from
peer 1: `CheckTx` pushes the hash on the cache and dispatches, then the
response callback inserts the transaction with priority 5. -/
def exAfterFirst : State :=
  ((initTxCallback (CheckTx exEmpty none [1, 2] (TxInfo.mk 1)).2.1 none
      (WrappedTx.mk [1, 2] 0 "" 3 [] 0)
      (Response.checkTx (ResponseCheckTx.mk 0 5 "a"))
      (TxInfo.mk 1)).getD (exEmpty, [])).1

/-! ## Claim theorems -/

/-- Claim C1: whenever the admission callback evicts a resident `V` to
make room for a newcomer, the eviction candidate returned by
`GetEvictableTx` on the response priority has priority strictly less than
that incoming priority, so `T.priority > V.priority`; and no eviction
happens when the mempool has room. -/
theorem initTx_eviction_dominance (s : State)
    (pc : Option (TxKey → ResponseCheckTx → Bool)) (wtx : WrappedTx)
    (res : Response) (info : TxInfo) (s' : State) (evs : List Event)
    (h : initTxCallback s pc wtx res info = some (s', evs)) :
    (∀ v, Event.evicted v ∈ evs →
      ∃ c, res = Response.checkTx c ∧ v.priority < c.priority)
    ∧ (canAddTx s wtx = none → ∀ v, Event.evicted v ∉ evs) := by
  unfold initTxCallback at h
  split at h
  · exact absurd h (by simp)
  · cases res with
    | checkTx c =>
      simp only at h
      split at h
      · -- OK code and passing post-check
        split at h
        · -- pre = none: capacity exhausted with no eviction candidate
          rename_i heq
          rw [Option.some_inj, Prod.mk.injEq] at h
          obtain ⟨rfl, rfl⟩ := h
          split at heq
          · exact absurd heq (by simp)
          · rename_i hfull
            constructor
            · intro v hv; simp at hv
            · intro hroom; rw [hroom] at hfull; exact absurd hfull (by simp)
        · -- pre = some (s1, evs1): room available or a successful eviction
          rename_i s1 evs1 heq
          split at h
          · exact absurd h (by simp)
          · rename_i s2 b hnotify
            rw [Option.some_inj, Prod.mk.injEq] at h
            obtain ⟨rfl, rfl⟩ := h
            split at heq
            · -- room available, no event emitted
              rw [Option.some_inj, Prod.mk.injEq] at heq
              obtain ⟨rfl, rfl⟩ := heq
              constructor
              · intro v hv; simp at hv
              · intro _ v hv; simp at hv
            · rename_i hfull
              split at heq
              · exact absurd heq (by simp)
              · -- eviction of the candidate
                rename_i toEvict hev
                rw [Option.some_inj, Prod.mk.injEq] at heq
                obtain ⟨rfl, rfl⟩ := heq
                constructor
                · intro v hv
                  simp only [List.mem_singleton, Event.evicted.injEq] at hv
                  subst hv
                  exact ⟨c, rfl, getEvictableTx_lt hev⟩
                · intro hroom; rw [hroom] at hfull; exact absurd hfull (by simp)
      · -- bad transaction: no eviction event
        rw [Option.some_inj, Prod.mk.injEq] at h
        obtain ⟨rfl, rfl⟩ := h
        constructor
        · intro v hv; simp at hv
        · intro _ v hv; simp at hv
    | flush =>
      rw [Option.some_inj, Prod.mk.injEq] at h
      obtain ⟨rfl, rfl⟩ := h
      exact ⟨fun v hv => absurd hv (by simp), fun _ v hv => absurd hv (by simp)⟩
    | other =>
      rw [Option.some_inj, Prod.mk.injEq] at h
      obtain ⟨rfl, rfl⟩ := h
      exact ⟨fun v hv => absurd hv (by simp), fun _ v hv => absurd hv (by simp)⟩

/-- Witness for C1: admitting the priority-3 newcomer `[9]` into the full
mempool `exLow` evicts the priority-1 resident `exV1`, and the claim
instantiates to that admission. -/
theorem initTx_eviction_dominance_witness :
    Event.evicted exV1 ∈ exEvictOut.2
    ∧ ((∀ v, Event.evicted v ∈ exEvictOut.2 →
          ∃ c, Response.checkTx exC3 = Response.checkTx c
            ∧ v.priority < c.priority)
        ∧ (canAddTx exLow exWtx9 = none →
            ∀ v, Event.evicted v ∉ exEvictOut.2)) :=
  ⟨by decide,
    initTx_eviction_dominance exLow none exWtx9 (Response.checkTx exC3)
      (TxInfo.mk 1) exEvictOut.1 exEvictOut.2 rfl⟩

/-- Claim C2: when `canAddTx` reports the mempool full and no resident
has priority strictly below the newcomer's response priority, the
admission callback discards the newcomer and removes its hash from the
cache, and the resulting state differs from the previous one in the cache
alone: residents, priority index, gossip index, `Size` and `SizeBytes`
are all unchanged. -/
theorem initTx_full_noEvictable_reject (s : State)
    (pc : Option (TxKey → ResponseCheckTx → Bool)) (wtx : WrappedTx)
    (c : ResponseCheckTx) (info : TxInfo) (err : ErrMempoolIsFull)
    (hcur : s.recheckCursor = none) (hok : c.code = 0)
    (hpost : postCheckRun pc wtx.tx c = true)
    (hfull : canAddTx s wtx = some err)
    (hnolow : ∀ w ∈ s.storeTxs, ¬ w.priority < c.priority) :
    initTxCallback s pc wtx (Response.checkTx c) info =
      some ({ s with cache := cacheRemove s.cache wtx.tx }, [Event.rejected])
    ∧ wtx.tx ∉ cacheRemove s.cache wtx.tx
    ∧ ({ s with cache := cacheRemove s.cache wtx.tx } : State).storeTxs
        = s.storeTxs
    ∧ ({ s with cache := cacheRemove s.cache wtx.tx } : State).priorityIndex
        = s.priorityIndex
    ∧ ({ s with cache := cacheRemove s.cache wtx.tx } : State).gossip
        = s.gossip
    ∧ ({ s with cache := cacheRemove s.cache wtx.tx } : State).size = s.size
    ∧ ({ s with cache := cacheRemove s.cache wtx.tx } : State).sizeBytes
        = s.sizeBytes := by
  have hev := getEvictableTx_none hnolow
  refine ⟨?_, ?_, rfl, rfl, rfl, rfl, rfl⟩
  · unfold initTxCallback
    simp [hcur, hok, hpost, hfull, hev]
  · simp [cacheRemove]

/-- Witness for C2: the priority-3 newcomer `[9]` against the full
mempool `exHigh` whose residents have priorities 5 and 6. -/
theorem initTx_full_noEvictable_reject_witness :
    initTxCallback exHigh none exWtx9 (Response.checkTx exC3) (TxInfo.mk 1) =
      some ({ exHigh with cache := cacheRemove exHigh.cache exWtx9.tx },
        [Event.rejected])
    ∧ exWtx9.tx ∉ cacheRemove exHigh.cache exWtx9.tx
    ∧ ({ exHigh with cache := cacheRemove exHigh.cache exWtx9.tx } : State).storeTxs
        = exHigh.storeTxs
    ∧ ({ exHigh with cache := cacheRemove exHigh.cache exWtx9.tx } : State).priorityIndex
        = exHigh.priorityIndex
    ∧ ({ exHigh with cache := cacheRemove exHigh.cache exWtx9.tx } : State).gossip
        = exHigh.gossip
    ∧ ({ exHigh with cache := cacheRemove exHigh.cache exWtx9.tx } : State).size
        = exHigh.size
    ∧ ({ exHigh with cache := cacheRemove exHigh.cache exWtx9.tx } : State).sizeBytes
        = exHigh.sizeBytes :=
  initTx_full_noEvictable_reject exHigh none exWtx9 exC3 (TxInfo.mk 1)
    (ErrMempoolIsFull.mk 2 2 2 100) (by decide) (by decide) (by decide)
    (by decide) (by decide)

/-- Claim C8: a transaction longer than `MaxTxBytes` makes `CheckTx`
return `ErrTxTooLarge` carrying the maximum and actual sizes, before the
pre-check, the validator health probe and the cache are consulted (the
outcome is the same for every pre-check and proxy state), with no request
dispatched and the state, cache included, unchanged. -/
theorem checkTx_tooLarge (s : State) (pre : Option (TxKey → Bool)) (tx : TxKey)
    (info : TxInfo) (h : s.config.maxTxBytes < tx.length) :
    CheckTx s pre tx info =
      (CheckTxOutcome.errTxTooLarge s.config.maxTxBytes tx.length, s, []) := by
  simp [CheckTx, h]

/-- Witness for C8: an 11-byte transaction against the 10-byte cap. -/
theorem checkTx_tooLarge_witness :
    CheckTx exEmpty none [0, 1, 2, 3, 4, 5, 6, 7, 8, 9, 0] (TxInfo.mk 1) =
      (CheckTxOutcome.errTxTooLarge 10 11, exEmpty, []) :=
  checkTx_tooLarge exEmpty none [0, 1, 2, 3, 4, 5, 6, 7, 8, 9, 0] (TxInfo.mk 1)
    (by decide)

/-- Claim C3: `insertTx` and `removeTx` preserve tri-index consistency
and byte accounting: after either completes, a transaction is in the
store, the priority index and the gossip index simultaneously or in none
of them, and `sizeBytes` is the sum of the resident payload lengths;
`insertTx` (of a key that is not already resident — on a resident key the
store map assignment overwrites while `sizeBytes` is still increased, so
the accounting invariant genuinely needs this hypothesis) adds the
transaction to all three indexes and adds its size, and `removeTx` (on a
resident, non-tombstoned transaction, with unambiguous keys) removes it
from all three and subtracts its size. -/
theorem insert_remove_consistency (s : State) (wtx : WrappedTx) (rfc : Bool)
    (hinv : triIndexConsistent s) (hacct : byteAccounting s) :
    (wtx.tx ∉ storeKeys s →
      triIndexConsistent (insertTx s wtx) ∧ byteAccounting (insertTx s wtx)
      ∧ wtx.tx ∈ storeKeys (insertTx s wtx)
      ∧ wtx.tx ∈ (insertTx s wtx).priorityIndex
      ∧ wtx.tx ∈ liveKeys (insertTx s wtx)
      ∧ (insertTx s wtx).sizeBytes = s.sizeBytes + wtx.txSize)
    ∧ (isTxRemoved s wtx.tx = false → wtx ∈ s.storeTxs →
        (storeKeys s).Nodup →
        triIndexConsistent (removeTx s wtx rfc)
        ∧ byteAccounting (removeTx s wtx rfc)
        ∧ wtx.tx ∉ storeKeys (removeTx s wtx rfc)
        ∧ wtx.tx ∉ (removeTx s wtx rfc).priorityIndex
        ∧ wtx.tx ∉ liveKeys (removeTx s wtx rfc)
        ∧ (removeTx s wtx rfc).sizeBytes = s.sizeBytes - wtx.txSize) := by
  constructor
  · intro hfresh
    refine ⟨insertTx_tri s wtx hfresh hinv, insertTx_acct s wtx hfresh hacct,
      ?_, ?_, ?_, (insertTx_proj s wtx hfresh).2.2.2.1⟩
    · obtain ⟨hst, _⟩ := insertTx_proj s wtx hfresh
      simp [storeKeys, hst]
    · obtain ⟨_, hpi, _⟩ := insertTx_proj s wtx hfresh
      simp [hpi]
    · obtain ⟨_, _, hg, _⟩ := insertTx_proj s wtx hfresh
      simp [liveKeys, hg]
  · intro hrem hmem hnd
    obtain ⟨hst, hpi, hg, hsz, _⟩ := removeTx_proj s wtx rfc hrem
    refine ⟨removeTx_tri s wtx rfc hinv,
      removeTx_acct s wtx rfc hrem hmem hnd hacct, ?_, ?_, ?_, hsz⟩
    · simp only [storeKeys]
      rw [hst, mem_storeKeys_filter]
      simp
    · rw [hpi]
      simp [List.mem_filter]
    · simp only [liveKeys]
      rw [hg, mem_liveKeys_mark]
      simp

/-- Witness for C3: insertion of the fresh transaction `[7, 8]` into and
removal of the resident `[1, 2]` from the one-transaction mempool
`exOne`. -/
theorem insert_remove_consistency_witness :
    triIndexConsistent (insertTx exOne (WrappedTx.mk [7, 8] 4 "d" 9 [] 0))
    ∧ (removeTx exOne (WrappedTx.mk [1, 2] 5 "a" 3 [] 0) false).sizeBytes
        = exOne.sizeBytes - (WrappedTx.mk [1, 2] 5 "a" 3 [] 0).txSize :=
  ⟨((insert_remove_consistency exOne (WrappedTx.mk [7, 8] 4 "d" 9 [] 0) false
      (by intro k; constructor <;> simp [storeKeys, liveKeys, exOne])
      (by unfold byteAccounting; decide)).1 (by decide)).1,
    ((insert_remove_consistency exOne (WrappedTx.mk [1, 2] 5 "a" 3 [] 0) false
      (by intro k; constructor <;> simp [storeKeys, liveKeys, exOne])
      (by unfold byteAccounting; decide)).2 (by decide) (by decide)
        (by decide)).2.2.2.2.2⟩

/-- Claim C4: when the transaction is already in the cache
(`cache.Push` returns `false`), `CheckTx` returns `ErrTxInCache` iff the
transaction is resident and the sender is newly added to its peer set;
otherwise it returns success without dispatching any request to the
validator. -/
theorem checkTx_cached (s : State) (pre : Option (TxKey → Bool)) (tx : TxKey)
    (info : TxInfo) (hsize : ¬ s.config.maxTxBytes < tx.length)
    (hpre : preCheckRun pre tx = true) (hproxy : s.proxyError = false)
    (hdup : (cachePush s.config.cacheSize s.cache tx).2 = false) :
    (∀ w, getTx s tx = some w → info.senderID ∉ w.peers →
      (CheckTx s pre tx info).1 = CheckTxOutcome.errTxInCache)
    ∧ (∀ w, getTx s tx = some w → info.senderID ∈ w.peers →
      (CheckTx s pre tx info).1 = CheckTxOutcome.okCached
        ∧ (CheckTx s pre tx info).2.2 = [])
    ∧ (getTx s tx = none →
      (CheckTx s pre tx info).1 = CheckTxOutcome.okCached
        ∧ (CheckTx s pre tx info).2.2 = []) := by
  refine ⟨?_, ?_, ?_⟩
  · intro w hw hpeer
    have hw2 : s.storeTxs.find? (fun x => x.tx = tx) = some w := hw
    simp [CheckTx, getOrSetPeerByTxHash, hsize, hpre, hproxy, hdup, hw2, hpeer]
  · intro w hw hpeer
    have hw2 : s.storeTxs.find? (fun x => x.tx = tx) = some w := hw
    simp [CheckTx, getOrSetPeerByTxHash, hsize, hpre, hproxy, hdup, hw2, hpeer]
  · intro hw
    have hw2 : s.storeTxs.find? (fun x => x.tx = tx) = none := hw
    simp [CheckTx, getOrSetPeerByTxHash, hsize, hpre, hproxy, hdup, hw2]

/-- Witness for C4: resubmitting `[1, 2]` from peer 1 after it has been
admitted once from peer 1 yields `ErrTxInCache`. -/
theorem checkTx_cached_witness :
    (CheckTx exAfterFirst none [1, 2] (TxInfo.mk 1)).1 =
      CheckTxOutcome.errTxInCache :=
  (checkTx_cached exAfterFirst none [1, 2] (TxInfo.mk 1) (by decide)
      (by decide) (by decide) (by decide)).1
    (WrappedTx.mk [1, 2] 5 "a" 3 [] 0) (by decide) (by decide)

/-- Claim C5: `Update` advances the internal height, resets the
notified-txs-available flag, inserts each committed transaction's hash
into the cache (here under the hypotheses that the cache is enabled and
large enough to hold them all) and removes each from the mempool if
resident, leaving the other residents in place; when transactions remain
and recheck is enabled it dispatches a recheck `CheckTx` for every
surviving resident (followed by the final flush). -/
theorem update_spec (s : State) (h : Int) (ks : List TxKey)
    (hwf : storeWF s) (hinv : triIndexConsistent s)
    (hpos : 0 < s.config.cacheSize) (hlen : ks.length ≤ s.config.cacheSize) :
    ∃ s' reqs, Update s h ks = some (s', reqs)
      ∧ s'.height = h
      ∧ s'.notifiedTxsAvailable = false
      ∧ (∀ k ∈ ks, k ∈ s'.cache)
      ∧ (∀ k ∈ ks, ∀ w ∈ s'.storeTxs, w.tx ≠ k)
      ∧ (∀ w ∈ s.storeTxs, w.tx ∉ ks → w ∈ s'.storeTxs)
      ∧ (0 < s'.size ∧ s'.config.recheck = true →
          (∀ w ∈ s'.storeTxs, Request.checkTx w.tx true ∈ reqs)
          ∧ Request.flush ∈ reqs) := by
  obtain ⟨W1, W2, W3, W4, W5, W6, W7⟩ :=
    purgeCommitted_facts ks
      { s with height := h, notifiedTxsAvailable := false } hwf hinv
  unfold Update
  dsimp only
  by_cases hgo :
      0 < (purgeCommitted
          { s with height := h, notifiedTxsAvailable := false } ks).size
      ∧ (purgeCommitted
          { s with height := h, notifiedTxsAvailable := false } ks).config.recheck
        = true
  · rw [if_pos hgo]
    obtain ⟨s2, reqs, heq, h2st, h2c, h2h, h2n, h2cfg, h2g, hfl, hreq⟩ :=
      updateReCheckTxs_spec
        (purgeCommitted { s with height := h, notifiedTxsAvailable := false } ks)
        (Nat.pos_iff_ne_zero.mp hgo.1)
    rw [heq]
    refine ⟨s2, reqs, rfl, ?_, ?_, ?_, ?_, ?_, ?_⟩
    · rw [h2h, W4]
    · rw [h2n, W5]
    · intro k hk
      rw [h2c, W7]
      exact fold_cachePush_mem s.config.cacheSize hpos ks s.cache []
        (by simpa using hlen) (by simp) k (Or.inr hk)
    · intro k hk w hw
      rw [h2st] at hw
      obtain ⟨hw1, hw2⟩ := (W3 w).mp hw
      intro hEq
      exact hw2 (hEq ▸ hk)
    · intro w hw hks
      rw [h2st]
      exact (W3 w).mpr ⟨hw, hks⟩
    · intro _
      refine ⟨?_, hfl⟩
      intro w hw
      rw [h2st] at hw
      have hks2 : w.tx ∈ storeKeys (purgeCommitted
          { s with height := h, notifiedTxsAvailable := false } ks) :=
        List.mem_map_of_mem _ hw
      have hlive := (W2 w.tx).2.mp hks2
      have hnotrm : isTxRemoved (purgeCommitted
          { s with height := h, notifiedTxsAvailable := false } ks) w.tx
            = false := by
        simpa [isTxRemoved] using W1 w hw
      exact hreq w.tx hlive hnotrm
  · rw [if_neg hgo]
    refine ⟨_, [], rfl, ?_, ?_, ?_, ?_, ?_, fun hc => absurd hc hgo⟩
    · rw [W4]
    · rw [W5]
    · intro k hk
      rw [W7]
      exact fold_cachePush_mem s.config.cacheSize hpos ks s.cache []
        (by simpa using hlen) (by simp) k (Or.inr hk)
    · intro k hk w hw
      obtain ⟨hw1, hw2⟩ := (W3 w).mp hw
      intro hEq
      exact hw2 (hEq ▸ hk)
    · intro w hw hks
      exact (W3 w).mpr ⟨hw, hks⟩

/-- Witness for C5: committing the unseen transaction `[9]` against the
one-transaction mempool `exReady`. -/
theorem update_spec_witness :
    ∃ s' reqs, Update exReady 1 [[9]] = some (s', reqs)
      ∧ s'.height = 1
      ∧ s'.notifiedTxsAvailable = false
      ∧ (∀ k ∈ ([[9]] : List TxKey), k ∈ s'.cache)
      ∧ (∀ k ∈ ([[9]] : List TxKey), ∀ w ∈ s'.storeTxs, w.tx ≠ k)
      ∧ (∀ w ∈ exReady.storeTxs, w.tx ∉ ([[9]] : List TxKey) →
          w ∈ s'.storeTxs)
      ∧ (0 < s'.size ∧ s'.config.recheck = true →
          (∀ w ∈ s'.storeTxs, Request.checkTx w.tx true ∈ reqs)
          ∧ Request.flush ∈ reqs) :=
  update_spec exReady 1 [[9]] (by unfold storeWF; decide)
    (by intro k; constructor <;> simp [storeKeys, liveKeys, exReady, exOne])
    (by decide) (by decide)

/-- Claim C6: `notifyTxsAvailable` panics on an empty mempool; in any
sequence of calls between two `Update` calls at most one send happens on
the `txsAvailable` channel, none when the channel is not enabled, none
once the per-height notified flag is set, and the send is non-blocking
(a full buffer drops it); a send happens only on a call that finds the
flag clear and immediately sets it. -/
theorem notify_available_single_shot (s : State) (n : Nat) :
    (s.size = 0 → notifyTxsAvailable s = none)
    ∧ (∀ s' c, notifySeq s n = some (s', c) →
        c ≤ 1 ∧ (s.txsAvailableEnabled = false → c = 0)
        ∧ (s.notifiedTxsAvailable = true → c = 0)
        ∧ (s.txsAvailableFull = true → c = 0))
    ∧ (∀ s1 sent, notifyTxsAvailable s = some (s1, sent) → sent = true →
        s.txsAvailableEnabled = true ∧ s.notifiedTxsAvailable = false
        ∧ s.txsAvailableFull = false ∧ s1.notifiedTxsAvailable = true) := by
  refine ⟨?_, ?_, ?_⟩
  · intro h; simp [notifyTxsAvailable, h]
  · intro s' c h; exact notifySeq_props n s s' c h
  · intro s1 sent h hsent
    subst hsent
    unfold notifyTxsAvailable at h
    split at h
    · exact absurd h (by simp)
    · split at h
      · rename_i hsz hcond
        rw [Bool.and_eq_true, Bool.not_eq_true'] at hcond
        rw [Option.some_inj, Prod.mk.injEq] at h
        obtain ⟨rfl, hsent⟩ := h
        refine ⟨hcond.1, hcond.2, ?_, rfl⟩
        cases hfull : s.txsAvailableFull
        · rfl
        · rw [hfull] at hsent; exact absurd hsent (by simp)
      · rw [Option.some_inj, Prod.mk.injEq] at h
        exact absurd h.2 (by simp)

/-- Witness for C6: two notification calls on `exReady` send exactly
once. -/
theorem notify_available_single_shot_witness :
    exNotifyOut.2 = 1
    ∧ (exNotifyOut.2 ≤ 1
        ∧ (exReady.txsAvailableEnabled = false → exNotifyOut.2 = 0)
        ∧ (exReady.notifiedTxsAvailable = true → exNotifyOut.2 = 0)
        ∧ (exReady.txsAvailableFull = true → exNotifyOut.2 = 0)) :=
  ⟨by decide,
    (notify_available_single_shot exReady 2).2.1 exNotifyOut.1 exNotifyOut.2
      rfl⟩

/-- Claim C7: a recheck response with OK code passing the post-check for
a non-tombstoned cursor transaction updates only that transaction's
priority, in place: the priority index keeps its exact contents and order
(no re-sift), the gossip index, byte count, cache, tombstones and height
are untouched, and apart from the cursor advancing (with the
end-of-recheck notification when the cursor finishes) nothing else
changes. -/
theorem recheck_ok_updates_priority_in_place (s : State)
    (pc : Option (TxKey → ResponseCheckTx → Bool)) (req : Request)
    (c : ResponseCheckTx) (cur : Nat) (node : GossipEl)
    (hcur : s.recheckCursor = some cur)
    (hnode : s.gossip.get? cur = some node)
    (hreq : req.reqTx = node.key)
    (hnotrm : isTxRemoved s node.key = false)
    (hcode : c.code = 0) (hpass : postCheckRun pc node.key c = true) :
    ∃ s', defaultTxCallback s pc req (Response.checkTx c) = some s'
      ∧ s'.storeTxs = s.storeTxs.map
          (fun w => if w.tx = node.key then { w with priority := c.priority }
            else w)
      ∧ s'.priorityIndex = s.priorityIndex
      ∧ s'.gossip = s.gossip
      ∧ s'.sizeBytes = s.sizeBytes
      ∧ s'.cache = s.cache
      ∧ s'.storeRemoved = s.storeRemoved
      ∧ s'.height = s.height
      ∧ s'.recheckEnd = s.recheckEnd
      ∧ s'.recheckCursor
          = (if some cur = s.recheckEnd then none else some (cur + 1))
      ∧ (some cur ≠ s.recheckEnd →
          s'.notifiedTxsAvailable = s.notifiedTxsAvailable
          ∧ s'.txsAvailableFull = s.txsAvailableFull) := by
  have hne : ¬ (req.reqTx ≠ node.key) := by simp [hreq]
  unfold defaultTxCallback
  rw [hcur]
  dsimp only
  rw [hnode]
  dsimp only
  rw [if_neg hne, if_neg (by simp [hnotrm] : ¬ isTxRemoved s node.key = true),
    if_pos (And.intro hcode hpass)]
  dsimp only
  by_cases hend : some cur = s.recheckEnd
  · -- the cursor finishes: it is cleared, and when the mempool is
    -- non-empty the availability notification fires
    rw [if_pos hend]
    by_cases hsz :
        0 < ({ s with
          storeTxs := s.storeTxs.map (fun w =>
            if w.tx = node.key then { w with priority := c.priority } else w),
          recheckCursor := (none : Option Nat) } : State).size
    · rw [if_pos (And.intro rfl hsz)]
      unfold notifyTxsAvailable
      rw [if_neg (Nat.pos_iff_ne_zero.mp hsz)]
      by_cases hflag : (s.txsAvailableEnabled && !s.notifiedTxsAvailable) = true
      · rw [if_pos hflag]
        dsimp only
        exact ⟨_, rfl, rfl, rfl, rfl, rfl, rfl, rfl, rfl, rfl,
          rfl, fun hc => absurd hend hc⟩
      · rw [if_neg hflag]
        dsimp only
        exact ⟨_, rfl, rfl, rfl, rfl, rfl, rfl, rfl, rfl, rfl,
          rfl, fun hc => absurd hend hc⟩
    · rw [if_neg (fun hc => hsz hc.2)]
      exact ⟨_, rfl, rfl, rfl, rfl, rfl, rfl, rfl, rfl, rfl,
        rfl, fun hc => absurd hend hc⟩
  · -- mid-recheck: the cursor advances and nothing else changes
    rw [if_neg hend]
    rw [if_neg (fun hc => Option.some_ne_none (cur + 1) hc.1)]
    exact ⟨_, rfl, rfl, rfl, rfl, rfl, rfl, rfl, rfl, rfl,
      rfl, fun _ => ⟨rfl, rfl⟩⟩

/-- Witness for C7: a recheck response with priority 9 for the cursor
transaction `[1, 2]` of `exRecheck`. -/
theorem recheck_ok_updates_priority_in_place_witness :
    ∃ s', defaultTxCallback exRecheck none (Request.checkTx [1, 2] true)
        (Response.checkTx (ResponseCheckTx.mk 0 9 "z")) = some s'
      ∧ s'.storeTxs = exRecheck.storeTxs.map
          (fun w => if w.tx = (GossipEl.mk [1, 2] false).key then
            { w with priority := (ResponseCheckTx.mk 0 9 "z").priority }
            else w)
      ∧ s'.priorityIndex = exRecheck.priorityIndex
      ∧ s'.gossip = exRecheck.gossip
      ∧ s'.sizeBytes = exRecheck.sizeBytes
      ∧ s'.cache = exRecheck.cache
      ∧ s'.storeRemoved = exRecheck.storeRemoved
      ∧ s'.height = exRecheck.height
      ∧ s'.recheckEnd = exRecheck.recheckEnd
      ∧ s'.recheckCursor
          = (if some 0 = exRecheck.recheckEnd then none else some (0 + 1))
      ∧ (some 0 ≠ exRecheck.recheckEnd →
          s'.notifiedTxsAvailable = exRecheck.notifiedTxsAvailable
          ∧ s'.txsAvailableFull = exRecheck.txsAvailableFull) :=
  recheck_ok_updates_priority_in_place exRecheck none
    (Request.checkTx [1, 2] true) (ResponseCheckTx.mk 0 9 "z") 0
    (GossipEl.mk [1, 2] false) (by decide) (by decide) (by decide) (by decide)
    (by decide) (by decide)

/-- Claim C9: on an empty mempool (empty gossip index) `NextGossipTx`
dereferences `gossipIndex.Front().Value` with `Front() = nil` and panics
(modelled as `none`). -/
theorem nextGossipTx_empty (s : State) (h : s.size = 0) :
    nextGossipTx s = none := by
  have hf : s.gossip.filter (fun e => !e.removed) = [] :=
    List.length_eq_zero.mp h
  simp [nextGossipTx, hf]

/-- Witness for C9: the freshly constructed mempool is empty and
`NextGossipTx` panics on it. -/
theorem nextGossipTx_empty_witness : nextGossipTx exEmpty = none :=
  nextGossipTx_empty exEmpty (by decide)

/-- Claim C10: during an active recheck, a response whose payload is not
the `CheckTx` variant (such as the `Flush` response of the final
`FlushAsync` of `updateReCheckTxs`) leaves the mempool state, the recheck
cursor included, completely unchanged. -/
theorem recheck_nonCheckTx_noop (s : State)
    (pc : Option (TxKey → ResponseCheckTx → Bool)) (req : Request)
    (res : Response) (cur : Nat) (hcur : s.recheckCursor = some cur)
    (hres : res.isCheckTx = false) :
    defaultTxCallback s pc req res = some s := by
  unfold defaultTxCallback
  rw [hcur]
  cases res with
  | checkTx c => simp [Response.isCheckTx] at hres
  | flush => rfl
  | other => rfl

/-- Witness for C10: the `Flush` response delivered mid-recheck leaves
`exRecheck` unchanged. -/
theorem recheck_nonCheckTx_noop_witness :
    defaultTxCallback exRecheck none Request.flush Response.flush =
      some exRecheck :=
  recheck_nonCheckTx_noop exRecheck none Request.flush Response.flush 0
    (by decide) (by decide)

end MempoolV1
